import Mathlib

/-!
Shallow embedding of the `typhonjs-node-bundle/plugin-fileutil` file utilities
(`FileUtil.js`): the path relativizer, the candidate resolver (`openFiles`),
the dual-root resolver (`openLocalConfigs`) and the tree walkers
(`walkDir`, `walkFiles`).  Paths are modelled as plain strings joined with the
POSIX separator; the filesystem and the two module-loading strategies are
modelled as explicit parameters of an environment record.
-/

namespace PluginFileUtil

/-- Model of `path.sep` (POSIX). -/
def pathSep : String := "/"

/-- Model of JavaScript `String.prototype.startsWith`, via character lists. -/
def jsStartsWith (s p : String) : Bool := p.data.isPrefixOf s.data

/-- Model of `path.join(dir, name)` for the simple segment join performed by
the walkers. -/
def pathJoin (dir name : String) : String := dir ++ pathSep ++ name

/-- Split a character list on the path separator. -/
def splitSegs : List Char → List (List Char)
  | [] => [[]]
  | c :: rest =>
    match splitSegs rest with
    | [] => []
    | seg :: segs => if c = '/' then [] :: seg :: segs else (c :: seg) :: segs

/-- Split a path into its nonempty segments. -/
def splitPath (p : String) : List String :=
  ((splitSegs p.data).map String.mk).filter (fun s => !(s == ""))

/-- Drop the longest common leading run of segments from two segment lists. -/
def dropCommonSegs : List String → List String → List String × List String
  | a :: as, b :: bs =>
    if a == b then dropCommonSegs as bs else (a :: as, b :: bs)
  | as, bs => (as, bs)

/-- Join segments with the path separator. -/
def joinSegs : List String → String
  | [] => ""
  | [s] => s
  | s :: rest => s ++ pathSep ++ joinSegs rest

/-- Model of Node `path.relative(base, target)` for already-absolute,
normalized POSIX paths: strip the common segment run, then climb with `..`
segments and descend into the remainder. -/
def pathRelative (base target : String) : String :=
  match dropCommonSegs (splitPath base) (splitPath target) with
  | (ups, downs) => joinSegs (ups.map (fun _ => "..") ++ downs)

/-- Embeds `FileUtil.getRelativePath`: if `filePath` starts with `basePath`
(plain string-prefix comparison), relativize and, when the relative path does
not already start with a dot, put a leading current-directory marker and
separator in front; otherwise return `filePath` unchanged. -/
def getRelativePath (basePath filePath : String) : String :=
  if jsStartsWith filePath basePath then
    let returnPath := pathRelative basePath filePath
    if jsStartsWith returnPath "." then returnPath
    else "." ++ pathSep ++ returnPath
  else
    filePath

/-- A directory forest: the direct entries of one directory, in filesystem
read order.  `dir name children rest` is a directory entry followed by the
remaining sibling entries; `file name rest` likewise for a plain file. -/
inductive Fs where
  | nil : Fs
  | file (name : String) (rest : Fs) : Fs
  | dir (name : String) (children : Fs) (rest : Fs) : Fs
deriving DecidableEq

/-- Concatenation of two sibling-entry sequences. -/
def Fs.append : Fs → Fs → Fs
  | .nil, t => t
  | .file n rest, t => .file n (Fs.append rest t)
  | .dir n kids rest, t => .dir n kids (Fs.append rest t)

/-- Embeds `FileUtil.walkDir`: skip any directory entry whose name is in
`skipDir` or starts with a dot; otherwise yield the directory path and then
recurse into it, with the recursive invocation receiving the default empty
skip list (`yield* FileUtil.walkDir(entry)`). -/
def walkDir (dir : String) (skipDir : List String) : Fs → List String
  | .nil => []
  | .file _ rest => walkDir dir skipDir rest
  | .dir name kids rest =>
    if skipDir.contains name || jsStartsWith name "." then
      walkDir dir skipDir rest
    else
      pathJoin dir name :: (walkDir (pathJoin dir name) [] kids ++ walkDir dir skipDir rest)

/-- Embeds `FileUtil.walkFiles`: the skip test applies only to directory
entries; every file entry is yielded, and each non-skipped directory is
recursed into with the default empty skip list. -/
def walkFiles (dir : String) (skipDir : List String) : Fs → List String
  | .nil => []
  | .file name rest => pathJoin dir name :: walkFiles dir skipDir rest
  | .dir name kids rest =>
    if skipDir.contains name || jsStartsWith name "." then
      walkFiles dir skipDir rest
    else
      walkFiles (pathJoin dir name) [] kids ++ walkFiles dir skipDir rest

/-- Erase, at every depth, each directory entry whose name starts with a dot
(files are kept). -/
def removeHiddenDirs : Fs → Fs
  | .nil => .nil
  | .file n rest => .file n (removeHiddenDirs rest)
  | .dir n kids rest =>
    if jsStartsWith n "." then removeHiddenDirs rest
    else .dir n (removeHiddenDirs kids) (removeHiddenDirs rest)

/-- Erase, at the top level only, each directory entry whose name is in the
exclusion list. -/
def removeTopExcluded (skipDir : List String) : Fs → Fs
  | .nil => .nil
  | .file n rest => .file n (removeTopExcluded skipDir rest)
  | .dir n kids rest =>
    if skipDir.contains n then removeTopExcluded skipDir rest
    else .dir n kids (removeTopExcluded skipDir rest)

/-- A loaded ES module as seen through dynamic import: only its default
export slot matters to the resolver (`module.default`). -/
structure EsModule (α : Type) where
  default : α

/-- The environment of the resolver: the two process-wide working-directory
globals (`$$bundler_baseCWD`, the possibly-relocated working root, and
`$$bundler_origCWD`, the original root), the `fs.existsSync` probe, and the
two loading strategies (`require`, which may throw with a message, and
dynamic `import`, which resolves to a module or rejects with a message). -/
structure Env (α : Type) where
  baseCWD : String
  origCWD : String
  existsSync : String → Bool
  requireLoad : String → Except String α
  importLoad : String → Except String (EsModule α)

/-- The structured result of a successful candidate load. -/
structure LoadResult (α : Type) where
  absFilePath : String
  baseFileName : String
  extension : String
  fileName : String
  relativePath : String
  data : α
deriving DecidableEq

/-- The full observable outcome of one `openFiles` call: the returned value
(`none` models `null`), the warning messages sent to the diagnostic sink, and
the paths probed with `fs.existsSync`, in order. -/
structure OpenOutcome (α : Type) where
  result : Option (LoadResult α)
  warnings : List String
  fsChecks : List String
deriving DecidableEq

/-- The absolute candidate path built by `openFiles`:
`basePath + path.sep + (baseFileName + extension)`. -/
def mkAbs (basePath baseFileName extension : String) : String :=
  basePath ++ pathSep ++ (baseFileName ++ extension)

/-- Embeds `FileUtil.openFiles` from the dual-strategy version of
`FileUtil.js`: walk the extension list in order; for each candidate compute
the file name, absolute path and (from the base CWD global) the relative
path; if the candidate exists, try `require`, then on failure dynamic
`import` taking the module default export, and when both fail emit one
warning (whose displayed path is relativized against the original CWD) and
stop without trying further extensions; candidates that do not exist are
skipped. -/
def openFiles (env : Env α) (basePath baseFileName : String) :
    List String → (errorMessage : String) → OpenOutcome α
  | [], _ => ⟨none, [], []⟩
  | extension :: rest, errorMessage =>
    let fileName := baseFileName ++ extension
    let absFilePath := basePath ++ pathSep ++ fileName
    let relativePath := getRelativePath env.baseCWD absFilePath
    if env.existsSync absFilePath then
      match env.requireLoad absFilePath with
      | Except.ok data =>
        ⟨some ⟨absFilePath, baseFileName, extension, fileName, relativePath, data⟩,
         [], [absFilePath]⟩
      | Except.error errMsg =>
        match env.importLoad absFilePath with
        | Except.ok m =>
          ⟨some ⟨absFilePath, baseFileName, extension, fileName, relativePath, m.default⟩,
           [], [absFilePath]⟩
        | Except.error errESM =>
          ⟨none,
           [errorMessage ++ "\nrequire error: " ++ errMsg ++ "\n" ++
            "dynamic import error: " ++ errESM ++ "\n" ++
            "file path: " ++ getRelativePath env.origCWD absFilePath],
           [absFilePath]⟩
    else
      let out := openFiles env basePath baseFileName rest errorMessage
      ⟨out.result, out.warnings, absFilePath :: out.fsChecks⟩

/-- Embeds `FileUtil.openLocalConfigs`: when the base CWD differs from the
original CWD, try `openFiles` against the base CWD first and return its
result if non-null; otherwise (and when the roots are equal) return the
`openFiles` outcome against the original CWD.  Side effects (warnings,
filesystem probes) of an unsuccessful first attempt still happen and are
accumulated. -/
def openLocalConfigs (env : Env α) (baseFileName : String)
    (extensions : List String) (errorMessage : String) : OpenOutcome α :=
  if env.baseCWD ≠ env.origCWD then
    let data := openFiles env env.baseCWD baseFileName extensions errorMessage
    if data.result.isSome then data
    else
      let second := openFiles env env.origCWD baseFileName extensions errorMessage
      ⟨second.result, data.warnings ++ second.warnings, data.fsChecks ++ second.fsChecks⟩
  else
    openFiles env env.origCWD baseFileName extensions errorMessage

/-- Concrete environment: `/base/config.js` exists and loads eagerly. -/
def envRequireOk : Env Nat :=
  ⟨"/work", "/orig", fun p => p == "/base/config.js",
   fun _ => Except.ok 42, fun _ => Except.error "esm boom"⟩

/-- Concrete environment: `/base/config.js` exists, the eager load throws and
the deferred load resolves to a module with default export `7`. -/
def envDeferredOk : Env Nat :=
  ⟨"/work", "/orig", fun p => p == "/base/config.js",
   fun _ => Except.error "require boom", fun _ => Except.ok ⟨7⟩⟩

/-- Concrete environment: `/base/config.js` exists and both loading
strategies fail. -/
def envBothFail : Env Nat :=
  ⟨"/work", "/orig", fun p => p == "/base/config.js",
   fun _ => Except.error "require boom", fun _ => Except.error "esm boom"⟩

/-- Concrete environment with distinct roots: `/work/config.js` exists under
the working root and loads eagerly. -/
def envWorkFile : Env Nat :=
  ⟨"/work", "/orig", fun p => p == "/work/config.js",
   fun _ => Except.ok 5, fun _ => Except.error "e"⟩

theorem openFiles_cons_absent (env : Env α) (bp stem e msg : String) (rest : List String)
    (h : env.existsSync (mkAbs bp stem e) = false) :
    openFiles env bp stem (e :: rest) msg =
      ⟨(openFiles env bp stem rest msg).result,
       (openFiles env bp stem rest msg).warnings,
       mkAbs bp stem e :: (openFiles env bp stem rest msg).fsChecks⟩ := by
  simp only [mkAbs] at h
  simp [openFiles, mkAbs, h]

theorem openFiles_cons_found_ok (env : Env α) (bp stem ext msg : String) (rest : List String)
    (d : α)
    (hex : env.existsSync (mkAbs bp stem ext) = true)
    (hreq : env.requireLoad (mkAbs bp stem ext) = Except.ok d) :
    openFiles env bp stem (ext :: rest) msg =
      ⟨some ⟨mkAbs bp stem ext, stem, ext, stem ++ ext,
             getRelativePath env.baseCWD (mkAbs bp stem ext), d⟩,
       [], [mkAbs bp stem ext]⟩ := by
  simp only [mkAbs] at hex hreq
  simp [openFiles, mkAbs, hex, hreq]

theorem openFiles_cons_found_esm (env : Env α) (bp stem ext msg m1 : String)
    (rest : List String) (m : EsModule α)
    (hex : env.existsSync (mkAbs bp stem ext) = true)
    (hreq : env.requireLoad (mkAbs bp stem ext) = Except.error m1)
    (himp : env.importLoad (mkAbs bp stem ext) = Except.ok m) :
    openFiles env bp stem (ext :: rest) msg =
      ⟨some ⟨mkAbs bp stem ext, stem, ext, stem ++ ext,
             getRelativePath env.baseCWD (mkAbs bp stem ext), m.default⟩,
       [], [mkAbs bp stem ext]⟩ := by
  simp only [mkAbs] at hex hreq himp
  simp [openFiles, mkAbs, hex, hreq, himp]

theorem openFiles_cons_found_fail (env : Env α) (bp stem ext msg m1 m2 : String)
    (rest : List String)
    (hex : env.existsSync (mkAbs bp stem ext) = true)
    (hreq : env.requireLoad (mkAbs bp stem ext) = Except.error m1)
    (himp : env.importLoad (mkAbs bp stem ext) = Except.error m2) :
    openFiles env bp stem (ext :: rest) msg =
      ⟨none,
       [msg ++ "\nrequire error: " ++ m1 ++ "\n" ++ "dynamic import error: " ++ m2 ++ "\n" ++
        "file path: " ++ getRelativePath env.origCWD (mkAbs bp stem ext)],
       [mkAbs bp stem ext]⟩ := by
  simp only [mkAbs] at hex hreq himp
  simp [openFiles, mkAbs, hex, hreq, himp]

theorem openFiles_skip_absent (env : Env α) (bp stem msg : String) (pre rest : List String)
    (h : ∀ e ∈ pre, env.existsSync (mkAbs bp stem e) = false) :
    openFiles env bp stem (pre ++ rest) msg =
      ⟨(openFiles env bp stem rest msg).result,
       (openFiles env bp stem rest msg).warnings,
       pre.map (mkAbs bp stem) ++ (openFiles env bp stem rest msg).fsChecks⟩ := by
  induction pre with
  | nil => simp
  | cons e pre ih =>
    have he : env.existsSync (mkAbs bp stem e) = false := h e (by simp)
    have hrest : ∀ x ∈ pre, env.existsSync (mkAbs bp stem x) = false :=
      fun x hx => h x (by simp [hx])
    rw [List.cons_append, openFiles_cons_absent env bp stem e msg (pre ++ rest) he, ih hrest]
    simp

/-- Claim C1: for every root pair, stem, extension list and diagnostic
prefix, when the base CWD differs from the original CWD the dual-root
resolver returns the candidate resolver result against the base CWD if it is
non-null, and in every other case returns exactly the candidate resolver
result against the original CWD, including null. -/
theorem openLocalConfigs_dual_root (env : Env α) (baseFileName : String)
    (extensions : List String) (errorMessage : String) :
    (openLocalConfigs env baseFileName extensions errorMessage).result =
      if env.baseCWD ≠ env.origCWD ∧
         (openFiles env env.baseCWD baseFileName extensions errorMessage).result.isSome = true
      then (openFiles env env.baseCWD baseFileName extensions errorMessage).result
      else (openFiles env env.origCWD baseFileName extensions errorMessage).result := by
  unfold openLocalConfigs
  by_cases h : env.baseCWD = env.origCWD
  · simp [h]
  · by_cases h2 :
      (openFiles env env.baseCWD baseFileName extensions errorMessage).result.isSome = true
    · simp [h, h2]
    · simp [h, h2]

/-- Claim C9: calling the candidate resolver with an empty extensions list
returns null, emits no warning, and performs no filesystem probe. -/
theorem openFiles_empty_extensions (env : Env α) (basePath baseFileName errorMessage : String) :
    openFiles env basePath baseFileName [] errorMessage =
      ⟨none, [], []⟩ := rfl

theorem openFiles_found_indep (env : Env α) (bp stem ext msg : String)
    (rest rest' : List String)
    (hex : env.existsSync (mkAbs bp stem ext) = true) :
    openFiles env bp stem (ext :: rest) msg = openFiles env bp stem (ext :: rest') msg := by
  simp only [mkAbs] at hex
  cases hreq : env.requireLoad (bp ++ pathSep ++ (stem ++ ext)) with
  | ok d => simp [openFiles, hex, hreq]
  | error m1 =>
    cases himp : env.importLoad (bp ++ pathSep ++ (stem ++ ext)) with
    | ok m => simp [openFiles, hex, hreq, himp]
    | error m2 => simp [openFiles, hex, hreq, himp]

theorem openFiles_found_checks (env : Env α) (bp stem ext msg : String)
    (rest : List String)
    (hex : env.existsSync (mkAbs bp stem ext) = true) :
    (openFiles env bp stem (ext :: rest) msg).fsChecks = [mkAbs bp stem ext] := by
  simp only [mkAbs] at hex
  cases hreq : env.requireLoad (bp ++ pathSep ++ (stem ++ ext)) with
  | ok d => simp [openFiles, mkAbs, hex, hreq]
  | error m1 =>
    cases himp : env.importLoad (bp ++ pathSep ++ (stem ++ ext)) with
    | ok m => simp [openFiles, mkAbs, hex, hreq, himp]
    | error m2 => simp [openFiles, mkAbs, hex, hreq, himp]

theorem openFiles_cons_found_result (env : Env α) (bp stem ext msg : String)
    (rest : List String)
    (hex : env.existsSync (mkAbs bp stem ext) = true) :
    ∀ r, (openFiles env bp stem (ext :: rest) msg).result = some r →
      r.absFilePath = mkAbs bp stem ext ∧ r.extension = ext ∧
      r.relativePath = getRelativePath env.baseCWD (mkAbs bp stem ext) := by
  intro r h
  cases hreq : env.requireLoad (mkAbs bp stem ext) with
  | ok d =>
    rw [openFiles_cons_found_ok env bp stem ext msg rest d hex hreq] at h
    have h2 := Option.some.inj h
    rw [← h2]
    exact ⟨rfl, rfl, rfl⟩
  | error m1 =>
    cases himp : env.importLoad (mkAbs bp stem ext) with
    | ok m =>
      rw [openFiles_cons_found_esm env bp stem ext msg m1 rest m hex hreq himp] at h
      have h2 := Option.some.inj h
      rw [← h2]
      exact ⟨rfl, rfl, rfl⟩
    | error m2 =>
      rw [openFiles_cons_found_fail env bp stem ext msg m1 m2 rest hex hreq himp] at h
      exact absurd h (by simp)

/-- Claim C2: when the first candidate that exists fails under both loading
strategies, the candidate resolver emits exactly one warning (prefix, both
failure messages and the orig-CWD-relative path), returns null, and its
filesystem probes stop at that candidate: no later extension is attempted. -/
theorem openFiles_load_failure_warns_and_stops (env : Env α)
    (bp stem msg m1 m2 ext : String) (pre post : List String)
    (hpre : ∀ e ∈ pre, env.existsSync (mkAbs bp stem e) = false)
    (hex : env.existsSync (mkAbs bp stem ext) = true)
    (hreq : env.requireLoad (mkAbs bp stem ext) = Except.error m1)
    (himp : env.importLoad (mkAbs bp stem ext) = Except.error m2) :
    openFiles env bp stem (pre ++ ext :: post) msg =
      ⟨none,
       [msg ++ "\nrequire error: " ++ m1 ++ "\n" ++ "dynamic import error: " ++ m2 ++ "\n" ++
        "file path: " ++ getRelativePath env.origCWD (mkAbs bp stem ext)],
       pre.map (mkAbs bp stem) ++ [mkAbs bp stem ext]⟩ := by
  rw [openFiles_skip_absent env bp stem msg pre (ext :: post) hpre,
      openFiles_cons_found_fail env bp stem ext msg m1 m2 post hex hreq himp]

/-- Claim C2 witness: a concrete environment where only `config.js` exists
and both strategies fail, with extension list `[.json, .js, .mjs]`. -/
theorem openFiles_load_failure_warns_and_stops_witness :
    openFiles envBothFail "/base" "config" ([".json"] ++ ".js" :: [".mjs"]) "PRE" =
      ⟨none,
       ["PRE" ++ "\nrequire error: " ++ "require boom" ++ "\n" ++
        "dynamic import error: " ++ "esm boom" ++ "\n" ++
        "file path: " ++ getRelativePath "/orig" (mkAbs "/base" "config" ".js")],
       [".json"].map (mkAbs "/base" "config") ++ [mkAbs "/base" "config" ".js"]⟩ :=
  openFiles_load_failure_warns_and_stops envBothFail "/base" "config" "PRE"
    "require boom" "esm boom" ".js" [".json"] [".mjs"]
    (by decide) (by decide) rfl rfl

/-- Claim C3: for an existing candidate, the eager (require) load is decisive
when it succeeds; only when it throws is the deferred (dynamic import) load
consulted, and on its success the LoadResult data field is the loaded module
default export. -/
theorem openFiles_eager_then_deferred (env : Env α) (bp stem msg ext : String)
    (pre post : List String)
    (hpre : ∀ e ∈ pre, env.existsSync (mkAbs bp stem e) = false)
    (hex : env.existsSync (mkAbs bp stem ext) = true) :
    (∀ d : α, env.requireLoad (mkAbs bp stem ext) = Except.ok d →
       (openFiles env bp stem (pre ++ ext :: post) msg).result =
         some ⟨mkAbs bp stem ext, stem, ext, stem ++ ext,
               getRelativePath env.baseCWD (mkAbs bp stem ext), d⟩) ∧
    (∀ (m1 : String) (m : EsModule α),
       env.requireLoad (mkAbs bp stem ext) = Except.error m1 →
       env.importLoad (mkAbs bp stem ext) = Except.ok m →
       (openFiles env bp stem (pre ++ ext :: post) msg).result =
         some ⟨mkAbs bp stem ext, stem, ext, stem ++ ext,
               getRelativePath env.baseCWD (mkAbs bp stem ext), m.default⟩) := by
  constructor
  · intro d hreq
    rw [openFiles_skip_absent env bp stem msg pre (ext :: post) hpre,
        openFiles_cons_found_ok env bp stem ext msg post d hex hreq]
  · intro m1 m hreq himp
    rw [openFiles_skip_absent env bp stem msg pre (ext :: post) hpre,
        openFiles_cons_found_esm env bp stem ext msg m1 post m hex hreq himp]

/-- Claim C3 witness: a concrete environment where the eager load of
`config.js` throws and the deferred load resolves to a module whose default
export is 7; the result data is that default export. -/
theorem openFiles_eager_then_deferred_witness :
    (openFiles envDeferredOk "/base" "config" ([] ++ ".js" :: []) "").result =
      some ⟨mkAbs "/base" "config" ".js", "config", ".js", "config" ++ ".js",
            getRelativePath "/work" (mkAbs "/base" "config" ".js"), 7⟩ :=
  (openFiles_eager_then_deferred envDeferredOk "/base" "config" "" ".js" [] []
      (by decide) (by decide)).2 "require boom" ⟨7⟩ rfl rfl

/-- Claim C4: candidates are probed in the supplied extension order, each
missing candidate is skipped without error, and the overall outcome is that
of loading just the first existing candidate: the probe list stops there and
any returned LoadResult carries the extension of that candidate. -/
theorem openFiles_first_existing_candidate (env : Env α) (bp stem msg ext : String)
    (pre post : List String)
    (hpre : ∀ e ∈ pre, env.existsSync (mkAbs bp stem e) = false)
    (hex : env.existsSync (mkAbs bp stem ext) = true) :
    openFiles env bp stem (pre ++ ext :: post) msg =
      ⟨(openFiles env bp stem [ext] msg).result,
       (openFiles env bp stem [ext] msg).warnings,
       pre.map (mkAbs bp stem) ++ [mkAbs bp stem ext]⟩ ∧
    (∀ r, (openFiles env bp stem (pre ++ ext :: post) msg).result = some r →
       r.extension = ext) := by
  have hskip := openFiles_skip_absent env bp stem msg pre (ext :: post) hpre
  constructor
  · rw [hskip, openFiles_found_indep env bp stem ext msg post [] hex,
        openFiles_found_checks env bp stem ext msg [] hex]
  · intro r h
    rw [hskip] at h
    exact (openFiles_cons_found_result env bp stem ext msg post hex r h).2.1

/-- Claim C4 witness: stem `config`, extensions `[.json, .js]`, a directory
containing only `config.js`; the resolver skips `.json` and returns a
LoadResult with extension `.js`. -/
theorem openFiles_first_existing_candidate_witness :
    (openFiles envRequireOk "/base" "config" ([".json"] ++ ".js" :: []) "" =
      ⟨(openFiles envRequireOk "/base" "config" [".js"] "").result,
       (openFiles envRequireOk "/base" "config" [".js"] "").warnings,
       [".json"].map (mkAbs "/base" "config") ++ [mkAbs "/base" "config" ".js"]⟩) ∧
    (⟨"/base/config.js", "config", ".js", "config.js", "/base/config.js",
      (42 : Nat)⟩ : LoadResult Nat).extension = ".js" :=
  ⟨(openFiles_first_existing_candidate envRequireOk "/base" "config" "" ".js"
      [".json"] [] (by decide) (by decide)).1,
   (openFiles_first_existing_candidate envRequireOk "/base" "config" "" ".js"
      [".json"] [] (by decide) (by decide)).2
     ⟨"/base/config.js", "config", ".js", "config.js", "/base/config.js", 42⟩
     (by decide)⟩

/-- Claim C5, amended: the relativePath of every successful LoadResult is
computed by the path relativizer against the working root (the base CWD
global), not the original root. -/
theorem openFiles_relativePath_uses_working_root (env : Env α)
    (bp stem : String) (exts : List String) (msg : String) :
    ∀ r, (openFiles env bp stem exts msg).result = some r →
      r.relativePath = getRelativePath env.baseCWD r.absFilePath := by
  induction exts with
  | nil => intro r h; exact absurd h (by simp [openFiles])
  | cons e rest ih =>
    intro r h
    by_cases hex : env.existsSync (mkAbs bp stem e) = true
    · obtain ⟨ha, _, hr⟩ := openFiles_cons_found_result env bp stem e msg rest hex r h
      rw [hr, ha]
    · have hx : env.existsSync (mkAbs bp stem e) = false := by simpa using hex
      rw [openFiles_cons_absent env bp stem e msg rest hx] at h
      exact ih r h

/-- Claim C5 witness: at a concrete working-root load the returned
relativePath is the relativization of the absolute path against the working
root. -/
theorem openFiles_relativePath_uses_working_root_witness :
    ("./config.js" : String) = getRelativePath "/work" "/work/config.js" :=
  openFiles_relativePath_uses_working_root envWorkFile "/work" "config" [".js"] ""
    ⟨"/work/config.js", "config", ".js", "config.js", "./config.js", 5⟩ (by decide)

/-- Claim C5 counterexample: with working root `/work` and original root
`/orig`, the successful load of `/work/config.js` carries relativePath
`./config.js`, the working-root relativization, which differs from the
original-root relativization `/work/config.js`; so the claim that the
relativePath is computed against the original root is false. -/
theorem openFiles_relativePath_counterexample :
    (openFiles envWorkFile "/work" "config" [".js"] "").result.map
        (fun r => r.relativePath) = some "./config.js" ∧
    (openFiles envWorkFile "/work" "config" [".js"] "").result.map
        (fun r => r.absFilePath) = some "/work/config.js" ∧
    getRelativePath "/orig" "/work/config.js" = "/work/config.js" ∧
    ("./config.js" : String) ≠ "/work/config.js" := by decide

theorem walkDir_append (dir : String) (skip : List String) (a b : Fs) :
    walkDir dir skip (Fs.append a b) = walkDir dir skip a ++ walkDir dir skip b := by
  induction a with
  | nil => simp [Fs.append, walkDir]
  | file n rest ih => simp [Fs.append, walkDir, ih]
  | dir n kids rest ihk ihr =>
    simp only [Fs.append, walkDir]
    split
    · exact ihr
    · simp [ihr]

theorem jsStartsWith_dot_cons (r : String) :
    jsStartsWith ("." ++ pathSep ++ r) "." = true := by
  obtain ⟨l⟩ := r
  simp [jsStartsWith, pathSep, String.data, List.isPrefixOf]

theorem jsStartsWith_dot_not_sep (s : String) (h : jsStartsWith s "." = true) :
    jsStartsWith s pathSep = false := by
  obtain ⟨l⟩ := s
  cases l with
  | nil => simp [jsStartsWith, List.isPrefixOf] at h
  | cons c t =>
    simp [jsStartsWith, List.isPrefixOf, pathSep] at h ⊢
    rw [← h]
    decide

/-- Claim C7: when filePath starts with basePath (plain string prefix), the
relativizer result begins with the current-directory marker (a dot) and so
never begins with the platform path separator; otherwise the input filePath
is returned exactly unchanged. -/
theorem getRelativePath_dot_marker (basePath filePath : String) :
    (jsStartsWith filePath basePath = true →
       jsStartsWith (getRelativePath basePath filePath) "." = true ∧
       jsStartsWith (getRelativePath basePath filePath) pathSep = false) ∧
    (jsStartsWith filePath basePath = false →
       getRelativePath basePath filePath = filePath) := by
  constructor
  · intro h
    have hdot : jsStartsWith (getRelativePath basePath filePath) "." = true := by
      unfold getRelativePath
      rw [h]
      by_cases hr : jsStartsWith (pathRelative basePath filePath) "." = true
      · simp [hr]
      · simp only [if_true]
        rw [if_neg (by simpa using hr)]
        exact jsStartsWith_dot_cons _
    exact ⟨hdot, jsStartsWith_dot_not_sep _ hdot⟩
  · intro h
    unfold getRelativePath
    rw [h]
    simp

/-- Claim C7 witness: concrete prefix and non-prefix inputs. -/
theorem getRelativePath_dot_marker_witness :
    (jsStartsWith (getRelativePath "/a" "/a/b") "." = true ∧
     jsStartsWith (getRelativePath "/a" "/a/b") pathSep = false) ∧
    getRelativePath "/x" "/a/b" = "/a/b" :=
  ⟨(getRelativePath_dot_marker "/a" "/a/b").1 (by decide),
   (getRelativePath_dot_marker "/x" "/a/b").2 (by decide)⟩

/-- Claim C6, amended: in both modes the walker never yields a directory
whose name starts with a dot and never descends into one — erasing every
hidden directory from the tree, at any depth, leaves the output unchanged —
but hidden FILES are not skipped: walkFiles yields every file entry,
including those whose name starts with a dot. -/
theorem walker_prunes_hidden_dirs_only :
    ∀ (t : Fs) (dir : String) (skip : List String),
      walkDir dir skip (removeHiddenDirs t) = walkDir dir skip t ∧
      walkFiles dir skip (removeHiddenDirs t) = walkFiles dir skip t ∧
      ∀ (name : String) (rest : Fs),
        walkFiles dir skip (Fs.file name rest) = pathJoin dir name :: walkFiles dir skip rest := by
  intro t
  induction t with
  | nil => exact fun dir skip => ⟨rfl, rfl, fun _ _ => rfl⟩
  | file n rest ih =>
    intro dir skip
    refine ⟨?_, ?_, fun _ _ => rfl⟩
    · simp [removeHiddenDirs, walkDir, (ih dir skip).1]
    · simp [removeHiddenDirs, walkFiles, (ih dir skip).2.1]
  | dir n kids rest ihk ihr =>
    intro dir skip
    refine ⟨?_, ?_, fun _ _ => rfl⟩
    · by_cases h : jsStartsWith n "." = true
      · simp [removeHiddenDirs, h, walkDir, (ihr dir skip).1]
      · by_cases h2 : n ∈ skip
        · simp [removeHiddenDirs, h, h2, walkDir, (ihr dir skip).1]
        · simp [removeHiddenDirs, h, h2, walkDir, (ihk (pathJoin dir n) []).1,
                (ihr dir skip).1]
    · by_cases h : jsStartsWith n "." = true
      · simp [removeHiddenDirs, h, walkFiles, (ihr dir skip).2.1]
      · by_cases h2 : n ∈ skip
        · simp [removeHiddenDirs, h, h2, walkFiles, (ihr dir skip).2.1]
        · simp [removeHiddenDirs, h, h2, walkFiles, (ihk (pathJoin dir n) []).2.1,
                (ihr dir skip).2.1]

/-- Claim C6 counterexample: walkFiles yields the hidden file `.babelrc`, so
the claim that the walker never yields an entry whose name starts with a dot
is false (only hidden directories are pruned). -/
theorem walkFiles_yields_hidden_file :
    walkFiles "." [] (Fs.file ".babelrc" Fs.nil) = [pathJoin "." ".babelrc"] ∧
    jsStartsWith ".babelrc" "." = true := by decide

/-- Claim C8: a top-level directory entry whose name is in the exclusion
list is never yielded and never descended into, in either mode — erasing
such entries at the top level leaves the output unchanged — while, because
recursive invocations receive the default empty exclusion list, a deeper
directory whose (non-hidden) name is in the exclusion list, reached through
a non-pruned child, is still yielded by walkDir. -/
theorem walker_exclusion_top_level_only (dir : String) (S : List String) :
    (∀ t : Fs,
       walkDir dir S (removeTopExcluded S t) = walkDir dir S t ∧
       walkFiles dir S (removeTopExcluded S t) = walkFiles dir S t) ∧
    (∀ (pre post pre2 post2 kids2 : Fs) (cname gname : String),
       S.contains cname = false → jsStartsWith cname "." = false →
       S.contains gname = true → jsStartsWith gname "." = false →
       pathJoin (pathJoin dir cname) gname ∈
         walkDir dir S
           (Fs.append pre (Fs.dir cname (Fs.append pre2 (Fs.dir gname kids2 post2)) post))) := by
  constructor
  · intro t
    induction t with
    | nil => exact ⟨rfl, rfl⟩
    | file n rest ih =>
      exact ⟨by simp [removeTopExcluded, walkDir, ih.1],
             by simp [removeTopExcluded, walkFiles, ih.2]⟩
    | dir n kids rest ihk ihr =>
      constructor
      · by_cases h : S.contains n = true
        · have hmem : n ∈ S := by simpa using h
          simp [removeTopExcluded, h, walkDir, hmem, ihr.1]
        · have hmem : ¬ n ∈ S := by simpa using h
          by_cases h2 : jsStartsWith n "." = true
          · simp [removeTopExcluded, h, walkDir, hmem, h2, ihr.1]
          · simp [removeTopExcluded, h, walkDir, hmem, h2, ihr.1]
      · by_cases h : S.contains n = true
        · have hmem : n ∈ S := by simpa using h
          simp [removeTopExcluded, h, walkFiles, hmem, ihr.2]
        · have hmem : ¬ n ∈ S := by simpa using h
          by_cases h2 : jsStartsWith n "." = true
          · simp [removeTopExcluded, h, walkFiles, hmem, h2, ihr.2]
          · simp [removeTopExcluded, h, walkFiles, hmem, h2, ihr.2]
  · intro pre post pre2 post2 kids2 cname gname hc1 hc2 hg1 hg2
    rw [walkDir_append]
    have hcm : ¬ cname ∈ S := by simpa using hc1
    have inner :
        walkDir (pathJoin dir cname) []
            (Fs.append pre2 (Fs.dir gname kids2 post2)) =
          walkDir (pathJoin dir cname) [] pre2 ++
            (pathJoin (pathJoin dir cname) gname ::
              (walkDir (pathJoin (pathJoin dir cname) gname) [] kids2 ++
               walkDir (pathJoin dir cname) [] post2)) := by
      rw [walkDir_append]
      simp [walkDir, hg2]
    simp [walkDir, hcm, hc2, inner]

/-- Claim C8 witness: with exclusion list `[node_modules]`, a top-level
`node_modules` directory is erased without changing the walk, while
`./src/node_modules` (one level deeper) is still yielded. -/
theorem walker_exclusion_top_level_only_witness :
    (walkDir "." ["node_modules"]
        (removeTopExcluded ["node_modules"] (Fs.dir "node_modules" Fs.nil Fs.nil)) =
      walkDir "." ["node_modules"] (Fs.dir "node_modules" Fs.nil Fs.nil)) ∧
    pathJoin (pathJoin "." "src") "node_modules" ∈
      walkDir "." ["node_modules"]
        (Fs.append Fs.nil
          (Fs.dir "src" (Fs.append Fs.nil (Fs.dir "node_modules" Fs.nil Fs.nil)) Fs.nil)) :=
  ⟨((walker_exclusion_top_level_only "." ["node_modules"]).1
      (Fs.dir "node_modules" Fs.nil Fs.nil)).1,
   (walker_exclusion_top_level_only "." ["node_modules"]).2
     Fs.nil Fs.nil Fs.nil Fs.nil Fs.nil "src" "node_modules"
     (by decide) (by decide) (by decide) (by decide)⟩

/-- Claim C10: walkDir yields each non-pruned directory strictly before
every directory contained inside it: the walk of a sibling sequence
containing a non-pruned directory entry is the walk of the earlier siblings,
then the path of that directory itself, then its entire subtree walk, then
the walk of the later siblings.  Applied recursively (each recursive invocation has
the empty exclusion list), this is exactly parent-before-descendant
preorder, whatever the sibling order. -/
theorem walkDir_parent_before_subtree (dir : String) (skip : List String)
    (pre post kids : Fs) (name : String)
    (h1 : skip.contains name = false) (h2 : jsStartsWith name "." = false) :
    walkDir dir skip (Fs.append pre (Fs.dir name kids post)) =
      walkDir dir skip pre ++
        pathJoin dir name ::
          (walkDir (pathJoin dir name) [] kids ++ walkDir dir skip post) := by
  have hm : ¬ name ∈ skip := by simpa using h1
  rw [walkDir_append]
  simp [walkDir, hm, h2]

/-- Claim C10 witness: a concrete decomposition with a one-deep subtree. -/
theorem walkDir_parent_before_subtree_witness :
    walkDir "." [] (Fs.append Fs.nil (Fs.dir "a" (Fs.dir "b" Fs.nil Fs.nil) Fs.nil)) =
      walkDir "." [] Fs.nil ++
        pathJoin "." "a" ::
          (walkDir (pathJoin "." "a") [] (Fs.dir "b" Fs.nil Fs.nil) ++ walkDir "." [] Fs.nil) :=
  walkDir_parent_before_subtree "." [] Fs.nil Fs.nil (Fs.dir "b" Fs.nil Fs.nil) "a"
    (by decide) (by decide)

end PluginFileUtil
